import Mathlib

/-!
Verification development for the OctoBot-Tentacles scalper tentacles.

Shallow embedding of:
- `src/Evaluator/TA/emagpt_evaluator/emagpt.py` (`EMAgptEvaluator.evaluate`
  and its signal-persistence stage),
- `src/Trading/Mode/btc_futures_scalper/btc_futures_strategy.py`
  (`BTCFuturesScalperStrategy`),
- `src/Trading/Mode/maker_first_range_mr_scalper/maker_scalping_mode.py`
  (`MakerScalpingModeProducer`),
- `src/Trading/Mode/maker_first_range_mr_scalper/maker_first_range_mr_strategy.py`
  (`MakerFirstRangeMRStrategy.matrix_callback`),
- `src/Evaluator/TA/micro_trend_pullback_evaluator/micro_trend_pullback.py`
  (`MicroTrendPullbackEvaluator._analyze_pullback_conditions`).

Conventions: Python floats are modelled as rationals; division is the total
division of `Rat` (`q / 0 = 0`), and every theorem whose content depends on a
division carries explicit non-degeneracy conditions or works on concrete
inputs where the divisor is visibly non-zero.  Python exceptions that escape
the modelled function are represented by an explicit outcome constructor.
-/

/-! ## Signal persistence stage of `EMAgptEvaluator.evaluate`
(`emagpt.py` lines 224-234)

Python source:
```
history = self.signal_history[symbol][time_frame]
history.append(signal)
if len(history) > self.persistence_candles:
    history.pop(0)
if signal != 0 and history.count(signal) < self.persistence_candles:
    signal = 0
self.eval_note = signal
```
The buffer `history` starts empty and holds the most recent raw signals.
`persistStep` performs one update: it returns the new buffer together with
the emitted (possibly downgraded) signal. -/

def persistStep (persistence_candles : ℕ) (history : List ℤ) (signal : ℤ) :
    List ℤ × ℤ :=
  let h1 := history ++ [signal]
  let h2 := if persistence_candles < h1.length then h1.tail else h1
  (h2, if signal ≠ 0 ∧ h2.count signal < persistence_candles then 0 else signal)

/-- Feeding a sequence of raw signals through the persistence stage starting
from buffer `history`; returns the emitted signals in order. -/
def persistRunFrom (persistence_candles : ℕ) (history : List ℤ) :
    List ℤ → List ℤ
  | [] => []
  | s :: rest =>
    (persistStep persistence_candles history s).2 ::
      persistRunFrom persistence_candles (persistStep persistence_candles history s).1 rest

/-- The persistence stage run from the initial empty buffer
(`self.signal_history[symbol][time_frame] = []` in `ohlcv_callback`). -/
def persistRun (persistence_candles : ℕ) (signals : List ℤ) : List ℤ :=
  persistRunFrom persistence_candles [] signals

/-- The last `n` elements of a list (Python `l[-n:]`). -/
def takeLast (n : ℕ) (l : List α) : List α :=
  l.drop (l.length - n)

/-- The window of the last `persistence_candles` raw signals ending at and
including position `i`. -/
def lastWindow (persistence_candles : ℕ) (signals : List ℤ) (i : ℕ) : List ℤ :=
  (signals.take (i + 1)).drop (i + 1 - persistence_candles)

/-- Closed form for the emitted signal at position `i` of the persistence
stage; proved below to agree with the stateful run. -/
def persistClosed (persistence_candles : ℕ) (signals : List ℤ) (i : ℕ) : ℤ :=
  if signals.getD i 0 ≠ 0 ∧
      (lastWindow persistence_candles signals i).count (signals.getD i 0) <
        persistence_candles then
    0
  else signals.getD i 0

lemma length_takeLast (n : ℕ) (l : List α) :
    (takeLast n l).length = min n l.length := by
  simp [takeLast]
  omega

/-- Buffer invariant step: if the buffer equals the last
`persistence_candles` elements already processed, it still does after one
more step. -/
lemma persistStep_buffer (N : ℕ) (processed : List ℤ) (s : ℤ) :
    (persistStep N (takeLast N processed) s).1 = takeLast N (processed ++ [s]) := by
  simp only [persistStep, takeLast]
  by_cases hlen : processed.length < N
  · have h0 : processed.length - N = 0 := by omega
    have h1 : processed.length + 1 - N = 0 := by omega
    simp [h0, h1]
    omega
  · have hdroplen : (processed.drop (processed.length - N)).length = N := by
      simp; omega
    have hgt : ¬ (processed.drop (processed.length - N) ++ [s]).length ≤ N := by
      simp [hdroplen]
    rw [if_pos (by simpa using Nat.lt_of_not_le hgt)]
    by_cases hN : N = 0
    · subst hN
      simp
    · have htail : (processed.drop (processed.length - N) ++ [s]).tail
          = processed.drop (processed.length - N + 1) ++ [s] := by
        rcases h : processed.drop (processed.length - N) with _ | ⟨a, trest⟩
        · exfalso
          have := congrArg List.length h
          simp [hdroplen] at this
          omega
        · have h2 : (processed.drop (processed.length - N)).tail
              = processed.drop (processed.length - N + 1) := List.tail_drop _ _
          rw [h] at h2
          simp only [List.tail_cons] at h2
          simp only [List.cons_append, List.tail_cons, h2]
      rw [htail]
      have harith : processed.length - N + 1 = processed.length + 1 - N := by omega
      rw [harith]
      have hle : processed.length + 1 - N ≤ processed.length := by omega
      have hlen2 : (processed ++ [s]).length - N = processed.length + 1 - N := by
        simp
      rw [hlen2, List.drop_append_of_le_length hle]

/-- The emitted signal of one step, under the buffer invariant, equals the
closed form at the position being processed. -/
lemma persistStep_out (N : ℕ) (processed : List ℤ) (s : ℤ) (rest : List ℤ) :
    (persistStep N (takeLast N processed) s).2
      = persistClosed N (processed ++ s :: rest) processed.length := by
  have hbuf := persistStep_buffer N processed s
  have hwin : lastWindow N (processed ++ s :: rest) processed.length
      = takeLast N (processed ++ [s]) := by
    simp only [lastWindow, takeLast]
    have htake : (processed ++ s :: rest).take (processed.length + 1)
        = processed ++ [s] := by
      rw [List.take_append_eq_append_take]
      simp
    rw [htake]
    simp
  have hget : (processed ++ s :: rest).getD processed.length 0 = s := by
    rw [List.getD_eq_getElem _ _ (by simp)]
    rw [List.getElem_append_right (by omega)]
    simp
  simp only [persistClosed, hwin, hget, ← hbuf]
  rfl

/-- The stateful persistence run agrees with the closed form pointwise. -/
lemma persistRunFrom_eq_closed (N : ℕ) :
    ∀ (rest processed : List ℤ),
      persistRunFrom N (takeLast N processed) rest
        = (List.range rest.length).map
            (fun j => persistClosed N (processed ++ rest) (processed.length + j)) := by
  intro rest
  induction rest with
  | nil => intro processed; simp [persistRunFrom]
  | cons s rest ih =>
    intro processed
    have hstep := persistStep_buffer N processed s
    have hout := persistStep_out N processed s rest
    simp only [persistRunFrom, hout, hstep]
    have ih2 := ih (processed ++ [s])
    rw [ih2]
    rw [List.length_cons, List.range_succ_eq_map]
    simp only [List.map_cons, List.map_map]
    refine congrArg₂ List.cons ?_ ?_
    · rw [Nat.add_zero]
    · apply List.map_congr_left
      intro j _
      have hassoc : processed ++ [s] ++ rest = processed ++ s :: rest := by simp
      rw [hassoc]
      have harith : (processed ++ [s]).length + j = processed.length + (j + 1) := by
        simp
        omega
      simp only [Function.comp]
      rw [harith]

lemma persistRun_getD (N : ℕ) (signals : List ℤ) (i : ℕ) (hi : i < signals.length) :
    (persistRun N signals).getD i 0 = persistClosed N signals i := by
  have h0 : takeLast N ([] : List ℤ) = [] := by simp [takeLast]
  have h := persistRunFrom_eq_closed N signals []
  rw [h0] at h
  simp only [persistRun, h, List.nil_append, List.length_nil]
  rw [List.getD_eq_getElem _ _ (by simpa using hi)]
  simp

lemma length_lastWindow (N : ℕ) (signals : List ℤ) (i : ℕ)
    (hi : i < signals.length) :
    (lastWindow N signals i).length = min N (i + 1) := by
  simp [lastWindow]
  omega

lemma persistClosed_ne_zero_iff (N : ℕ) (signals : List ℤ) (i : ℕ)
    (hi : i < signals.length) :
    persistClosed N signals i ≠ 0 ↔
      (N ≤ i + 1 ∧ signals.getD i 0 ≠ 0 ∧
        ∀ x ∈ lastWindow N signals i, x = signals.getD i 0) := by
  have hwlen := length_lastWindow N signals i hi
  simp only [persistClosed]
  by_cases hs : signals.getD i 0 = 0
  · have hcond : ¬(signals.getD i 0 ≠ 0 ∧
        (lastWindow N signals i).count (signals.getD i 0) < N) := by
      intro hc
      exact hc.1 hs
    rw [if_neg hcond]
    constructor
    · intro h
      exact absurd hs h
    · rintro ⟨-, h, -⟩
      exact absurd hs h
  · by_cases hcnt :
        (lastWindow N signals i).count (signals.getD i 0) < N
    · rw [if_pos ⟨hs, hcnt⟩]
      constructor
      · intro h
        exact absurd rfl h
      · rintro ⟨hNle, -, hall⟩
        exfalso
        have hceq : (lastWindow N signals i).count (signals.getD i 0)
            = (lastWindow N signals i).length :=
          List.count_eq_length.mpr (fun b hb => (hall b hb).symm)
        rw [hwlen] at hceq
        omega
    · rw [if_neg (by tauto)]
      constructor
      · intro _
        have hcnt2 : N ≤ (lastWindow N signals i).count (signals.getD i 0) :=
          Nat.le_of_not_lt hcnt
        have hcle : (lastWindow N signals i).count (signals.getD i 0)
            ≤ (lastWindow N signals i).length := List.count_le_length _ _
        rw [hwlen] at hcle
        have hNle : N ≤ i + 1 := by omega
        refine ⟨hNle, hs, ?_⟩
        have hceq : (lastWindow N signals i).count (signals.getD i 0)
            = (lastWindow N signals i).length := by
          rw [hwlen]
          omega
        intro x hx
        exact (List.count_eq_length.mp hceq x hx).symm
      · intro _
        exact hs

/-- C1: persistence filter of `EMAgptEvaluator.evaluate`
(`emagpt.py` lines 224-234).  For every sequence of raw signals and
persistence window `N` (at least 1, per the user-input constraint), the
emitted signal at position `i` is non-zero if and only if the last `N` raw
signals ending at and including position `i` are all equal and non-zero
(in particular position `i` must have at least `N` predecessors including
itself); when non-zero it equals the raw signal.  With `N = 2` the raw
sequence `[1, 1, -1, -1, 1]` produces `[0, 1, 0, -1, 0]`. -/
theorem c1_persistence_filter (N : ℕ) (signals : List ℤ) (i : ℕ)
    (_hN : 1 ≤ N) (hi : i < signals.length) :
    ((persistRun N signals).getD i 0 ≠ 0 ↔
      (N ≤ i + 1 ∧ signals.getD i 0 ≠ 0 ∧
        ∀ x ∈ lastWindow N signals i, x = signals.getD i 0)) ∧
    ((persistRun N signals).getD i 0 ≠ 0 →
      (persistRun N signals).getD i 0 = signals.getD i 0) ∧
    persistRun 2 [1, 1, -1, -1, 1] = [0, 1, 0, -1, 0] := by
  have hrw := persistRun_getD N signals i hi
  refine ⟨?_, ?_, by decide⟩
  · rw [hrw]
    exact persistClosed_ne_zero_iff N signals i hi
  · rw [hrw]
    simp only [persistClosed]
    split
    · intro h
      exact absurd rfl h
    · intro _
      rfl

/-- Witness for C1 at the concrete instance from the claim: window `N = 2`,
raw sequence `[1, 1, -1, -1, 1]`, position `i = 1` (the first emitted `1`). -/
theorem c1_persistence_filter_witness :
    (1 ≤ 2 ∧ 1 < ([1, 1, -1, -1, 1] : List ℤ).length) ∧
    ((persistRun 2 [1, 1, -1, -1, 1]).getD 1 0 ≠ 0 ↔
      (2 ≤ 1 + 1 ∧ ([1, 1, -1, -1, 1] : List ℤ).getD 1 0 ≠ 0 ∧
        ∀ x ∈ lastWindow 2 [1, 1, -1, -1, 1] 1,
          x = ([1, 1, -1, -1, 1] : List ℤ).getD 1 0)) :=
  ⟨⟨by decide, by decide⟩,
    (c1_persistence_filter 2 [1, 1, -1, -1, 1] 1 (by decide) (by decide)).1⟩

/-! ## MakerScalpingModeProducer (`maker_scalping_mode.py` lines 256-336)

The producer holds `self.state` (initially `None`), the configured trading
parameters, and reacts to a freshly computed `self.final_eval` through
`create_state` and `_set_state`.  `final_eval` is a `decimal.Decimal` that is
either NaN (the pending sentinel `START_PENDING_EVAL_NOTE` parses to NaN) or
a number; it is modelled by `FinalEval`.  All functions are total: the Python
bodies of `create_state` and `_set_state` contain no `raise` and no failing
operation, so no exception can propagate. -/

inductive EvaluatorStates
  | VERY_SHORT
  | SHORT
  | NEUTRAL
  | LONG
  | VERY_LONG
deriving DecidableEq

structure MakerScalpingProducer where
  state : Option EvaluatorStates
  cooldown_candles : ℕ
  max_positions : ℕ
deriving DecidableEq

/-- Field values set in `MakerScalpingModeProducer.__init__`
(lines 256-270): `self.state = None`, `self.cooldown_candles = 3`,
`self.max_positions = 1`. -/
def initialMakerScalpingProducer : MakerScalpingProducer :=
  { state := none, cooldown_candles := 3, max_positions := 1 }

/-- The `final_eval` decimal: NaN or a numeric value. -/
inductive FinalEval
  | nan
  | val (q : ℚ)
deriving DecidableEq

/-- `MakerScalpingModeProducer._set_state` (lines 322-332): when the new
state differs from the stored one, store it and submit the trading
evaluation (the returned Boolean is `true` exactly when
`submit_trading_evaluation` is awaited); otherwise do nothing. -/
def makerSetState (p : MakerScalpingProducer) (new_state : EvaluatorStates) :
    MakerScalpingProducer × Bool :=
  if some new_state ≠ p.state then ({ p with state := some new_state }, true)
  else (p, false)

/-- `MakerScalpingModeProducer.create_state` (lines 293-320): NaN
`final_eval` goes to NEUTRAL, positive to LONG, negative to SHORT, zero to
NEUTRAL; then `_set_state` is applied.  `self.cooldown_candles` is never
consulted. -/
def makerCreateState (p : MakerScalpingProducer) (final_eval : FinalEval) :
    MakerScalpingProducer × Bool :=
  match final_eval with
  | .nan => makerSetState p EvaluatorStates.NEUTRAL
  | .val q =>
    makerSetState p
      (if 0 < q then EvaluatorStates.LONG
       else if q < 0 then EvaluatorStates.SHORT
       else EvaluatorStates.NEUTRAL)

/-- Applying `create_state` to a sequence of decisions (one per candle),
collecting for each whether the state-change event fired. -/
def makerRunDecisions (p : MakerScalpingProducer) : List FinalEval → List Bool
  | [] => []
  | d :: rest =>
    (makerCreateState p d).2 :: makerRunDecisions (makerCreateState p d).1 rest

/-- C3: decision state machine event discipline
(`maker_scalping_mode.py` lines 322-332).  For every producer state
(covering every state reachable along any sequence of computed target
states, starting from the initial `None`) and newly computed target state,
the state-change event fires if and only if the target differs from the
stored state; when it does not fire, the producer (its stored state and
every other field) is returned unchanged; when it fires, only the stored
state is updated. -/
theorem c3_state_change_event_iff (p : MakerScalpingProducer)
    (new_state : EvaluatorStates) :
    ((makerSetState p new_state).2 = true ↔ some new_state ≠ p.state) ∧
    ((makerSetState p new_state).2 = false →
      makerSetState p new_state = (p, false)) ∧
    ((makerSetState p new_state).2 = true →
      (makerSetState p new_state).1 = { p with state := some new_state }) := by
  simp only [makerSetState]
  by_cases h : some new_state = p.state
  · rw [if_neg (by simp [h])]
    simp [h]
  · rw [if_pos (by simp [h])]
    simp [h]

/-- Witness for C3: from the initial `None` state a NEUTRAL target fires the
event; once NEUTRAL is stored, a second NEUTRAL target leaves the producer
untouched and fires nothing. -/
theorem c3_state_change_event_iff_witness :
    (makerSetState initialMakerScalpingProducer EvaluatorStates.NEUTRAL).2 = true ∧
    makerSetState
        { initialMakerScalpingProducer with state := some EvaluatorStates.NEUTRAL }
        EvaluatorStates.NEUTRAL
      = ({ initialMakerScalpingProducer with state := some EvaluatorStates.NEUTRAL },
          false) :=
  ⟨(c3_state_change_event_iff initialMakerScalpingProducer
      EvaluatorStates.NEUTRAL).1.mpr (by decide),
    (c3_state_change_event_iff
      { initialMakerScalpingProducer with state := some EvaluatorStates.NEUTRAL }
      EvaluatorStates.NEUTRAL).2.1 (by decide)⟩

/-- C4: with `cooldown_candles = 3`, a directional decision arriving one
candle after the LONG-to-NEUTRAL transition is nevertheless honored: the
decision trace `[1, 0, 1]` (enter LONG, exit to NEUTRAL, re-enter LONG on
the very next candle) fires the state-change event at every step, because
`create_state` never consults `cooldown_candles`.  The claim says the third
decision must be recorded without firing until three candles have elapsed. -/
theorem c4_cooldown_not_enforced :
    initialMakerScalpingProducer.cooldown_candles = 3 ∧
    makerRunDecisions initialMakerScalpingProducer
        [FinalEval.val 1, FinalEval.val 0, FinalEval.val 1]
      = [true, true, true] ∧
    (makerCreateState
        { initialMakerScalpingProducer with state := some EvaluatorStates.NEUTRAL }
        (FinalEval.val 1)).2 = true := by
  decide

/-- C8 counterexample: a NaN decision arriving while the stored state is
LONG is not withheld: the code maps it to NEUTRAL, so the stored state
changes and the state-change event is emitted, contradicting the claim that
no transition occurs and nothing is emitted. -/
theorem c8_nan_counterexample :
    makerCreateState
        { initialMakerScalpingProducer with state := some EvaluatorStates.LONG }
        FinalEval.nan
      = ({ initialMakerScalpingProducer with state := some EvaluatorStates.NEUTRAL },
          true) := by
  decide

/-- C8 amended: a NaN decision (whether the pending sentinel or malformed)
is not withheld but mapped to the NEUTRAL target state: the producer then
behaves exactly as `_set_state NEUTRAL`, so nothing changes and nothing is
emitted only when the stored state is already NEUTRAL, while from any other
stored state the NaN decision causes a transition to NEUTRAL and emits the
state-change event.  No exception propagates (the function is total). -/
theorem c8_nan_maps_to_neutral (p : MakerScalpingProducer) :
    makerCreateState p FinalEval.nan = makerSetState p EvaluatorStates.NEUTRAL ∧
    ((makerCreateState p FinalEval.nan).2 = true ↔
      p.state ≠ some EvaluatorStates.NEUTRAL) ∧
    ((makerCreateState p FinalEval.nan).2 = false →
      (makerCreateState p FinalEval.nan).1 = p) := by
  refine ⟨rfl, ?_, ?_⟩
  · simp only [makerCreateState, makerSetState]
    by_cases h : some EvaluatorStates.NEUTRAL = p.state
    · rw [if_neg (by simp [h])]
      simp [← h]
    · rw [if_pos (by simp [h])]
      simp
      intro hc
      exact h hc.symm
  · simp only [makerCreateState, makerSetState]
    by_cases h : some EvaluatorStates.NEUTRAL = p.state
    · rw [if_neg (by simp [h])]
      intro _
      rfl
    · rw [if_pos (by simp [h])]
      intro hc
      cases hc

/-- Witness for C8 amended: from stored state LONG, NaN transitions to
NEUTRAL and emits; from stored state NEUTRAL it emits nothing. -/
theorem c8_nan_maps_to_neutral_witness :
    (makerCreateState
        { initialMakerScalpingProducer with state := some EvaluatorStates.LONG }
        FinalEval.nan).2 = true ∧
    (makerCreateState
        { initialMakerScalpingProducer with state := some EvaluatorStates.NEUTRAL }
        FinalEval.nan).1
      = { initialMakerScalpingProducer with state := some EvaluatorStates.NEUTRAL } :=
  ⟨(c8_nan_maps_to_neutral
      { initialMakerScalpingProducer with state := some EvaluatorStates.LONG }).2.1.mpr
      (by decide),
    (c8_nan_maps_to_neutral
      { initialMakerScalpingProducer with state := some EvaluatorStates.NEUTRAL }).2.2
      (by decide)⟩

/-! ## BTCFuturesScalperStrategy (`btc_futures_strategy.py`)

`self.evaluator_results` is a dict whose keys are restricted by
`matrix_callback` to the three weighted timeframes `"1m"`, `"3m"`, `"5m"`,
so it is modelled as one optional slot per timeframe; the dict length is the
number of filled slots.  A stored matrix is modelled by the evaluation note
it carries (a rational); `_extract_score_from_matrix` ignores its argument
and returns `0.0` (a placeholder, per its own docstring). -/

inductive TradeSignal
  | long
  | short
  | neutral
deriving DecidableEq

structure EvalResults where
  r1m : Option ℚ
  r3m : Option ℚ
  r5m : Option ℚ
deriving DecidableEq

/-- `BTCFuturesScalperStrategy._extract_score_from_matrix` (lines 73-80):
the placeholder returns `0.0` for every matrix. -/
def extractScoreFromMatrix (_matrix : ℚ) : ℚ := 0

/-- Number of timeframes that have reported (`len(self.evaluator_results)`). -/
def resultsCount (r : EvalResults) : ℕ :=
  (if r.r1m.isSome then 1 else 0) + (if r.r3m.isSome then 1 else 0) +
    (if r.r5m.isSome then 1 else 0)

/-- The store step of `matrix_callback` (lines 35-37): results are stored
only for timeframes present in `self.timeframe_weights`. -/
def storeResult (r : EvalResults) (timeframe : String) (matrix : ℚ) :
    EvalResults :=
  if timeframe = "1m" then { r with r1m := some matrix }
  else if timeframe = "3m" then { r with r3m := some matrix }
  else if timeframe = "5m" then { r with r5m := some matrix }
  else r

/-- The `scores` list built by `_compute_final_signal` (lines 49-56),
iterating `self.timeframe_weights` in insertion order
`1m ↦ 0.50, 3m ↦ 0.30, 5m ↦ 0.20` and keeping only reported timeframes. -/
def computeScores (r : EvalResults) : List ℚ :=
  (match r.r1m with
   | some m => [extractScoreFromMatrix m * (1 / 2)]
   | none => []) ++
  (match r.r3m with
   | some m => [extractScoreFromMatrix m * (3 / 10)]
   | none => []) ++
  (match r.r5m with
   | some m => [extractScoreFromMatrix m * (1 / 5)]
   | none => [])

/-- `BTCFuturesScalperStrategy._compute_final_signal` (lines 43-71): the
final signal and the threshold comparison
(`long_threshold = 0.60`, `short_threshold = -0.60`); `none` when no score
is available (then nothing is emitted). -/
def computeFinalSignal (r : EvalResults) : Option (ℚ × TradeSignal) :=
  if (computeScores r).isEmpty then none
  else
    some ((computeScores r).sum,
      if (computeScores r).sum ≥ 3 / 5 then TradeSignal.long
      else if (computeScores r).sum ≤ -(3 / 5) then TradeSignal.short
      else TradeSignal.neutral)

/-- `BTCFuturesScalperStrategy.matrix_callback` (lines 30-41): store the
result, then compute the final signal only when all three timeframes have
reported (`len(self.evaluator_results) == 3`). -/
def btcMatrixCallback (r : EvalResults) (timeframe : String) (matrix : ℚ) :
    EvalResults × Option (ℚ × TradeSignal) :=
  (storeResult r timeframe matrix,
   if resultsCount (storeResult r timeframe matrix) = 3 then
     computeFinalSignal (storeResult r timeframe matrix)
   else none)

lemma computeScores_sum_zero (r : EvalResults) : (computeScores r).sum = 0 := by
  rcases r with ⟨o1, o3, o5⟩
  rcases o1 <;> rcases o3 <;> rcases o5 <;>
    simp [computeScores, extractScoreFromMatrix]

lemma computeFinalSignal_spec (r : EvalResults) (q : ℚ) (sig : TradeSignal)
    (h : computeFinalSignal r = some (q, sig)) :
    q = (computeScores r).sum ∧ q = 0 ∧ sig = TradeSignal.neutral := by
  have hsum := computeScores_sum_zero r
  unfold computeFinalSignal at h
  by_cases he : (computeScores r).isEmpty
  · rw [if_pos he] at h
    cases h
  · rw [if_neg he] at h
    simp only [Option.some.injEq, Prod.mk.injEq] at h
    obtain ⟨hq, hsig⟩ := h
    rw [hsum] at hq hsig
    norm_num at hsig
    exact ⟨by rw [← hq, hsum], hq.symm, hsig.symm⟩

/-- C2 counterexample: feeding the literal evaluator notes
`1m ↦ 1.0`, `3m ↦ 0.0`, `5m ↦ -1.0` through `matrix_callback` computes no
decision until all three timeframes have reported, and then computes the
decision `0.0` (candidate signal neutral), not `0.3` as the claim states:
the placeholder `_extract_score_from_matrix` discards the notes. -/
theorem c2_counterexample :
    (btcMatrixCallback ⟨none, none, none⟩ "1m" 1).2 = none ∧
    (btcMatrixCallback (btcMatrixCallback ⟨none, none, none⟩ "1m" 1).1
        "3m" 0).2 = none ∧
    (btcMatrixCallback
        (btcMatrixCallback (btcMatrixCallback ⟨none, none, none⟩ "1m" 1).1
          "3m" 0).1
        "5m" (-1)).2
      = some (0, TradeSignal.neutral) ∧
    (0 : ℚ) ≠ 3 / 10 := by
  refine ⟨?_, ?_, ?_, by norm_num⟩
  · simp [btcMatrixCallback, storeResult, resultsCount]
  · simp [btcMatrixCallback, storeResult, resultsCount]
  · simp [btcMatrixCallback, storeResult, resultsCount, computeFinalSignal,
      computeScores, extractScoreFromMatrix]
    norm_num

/-- C2 amended: no decision is computed until all three configured
timeframes have reported; once they have, the decision equals the sum over
reported timeframes of `weight × extracted score`, where the placeholder
`_extract_score_from_matrix` returns `0.0` for every matrix, so the computed
decision is always `0.0` and the candidate signal is always neutral (the
thresholds `0.60` and `-0.60` of `_compute_final_signal` are never
reached). -/
theorem c2_aggregator_amended (r : EvalResults) (timeframe : String)
    (matrix : ℚ) :
    ((btcMatrixCallback r timeframe matrix).2.isSome ↔
      ((btcMatrixCallback r timeframe matrix).1.r1m.isSome ∧
        (btcMatrixCallback r timeframe matrix).1.r3m.isSome ∧
        (btcMatrixCallback r timeframe matrix).1.r5m.isSome)) ∧
    (∀ q sig, (btcMatrixCallback r timeframe matrix).2 = some (q, sig) →
      q = (computeScores (btcMatrixCallback r timeframe matrix).1).sum ∧
      q = 0 ∧ sig = TradeSignal.neutral) ∧
    extractScoreFromMatrix matrix = 0 := by
  refine ⟨?_, ?_, rfl⟩
  · have h1 : (btcMatrixCallback r timeframe matrix).1
        = storeResult r timeframe matrix := rfl
    have h2 : (btcMatrixCallback r timeframe matrix).2
        = (if resultsCount (storeResult r timeframe matrix) = 3 then
            computeFinalSignal (storeResult r timeframe matrix)
          else none) := rfl
    rw [h2, h1]
    generalize storeResult r timeframe matrix = r₂
    rcases r₂ with ⟨o1, o3, o5⟩
    rcases o1 <;> rcases o3 <;> rcases o5 <;>
      simp [resultsCount, computeFinalSignal, computeScores,
        extractScoreFromMatrix]
  · intro q sig h
    replace h : (if resultsCount (storeResult r timeframe matrix) = 3 then
        computeFinalSignal (storeResult r timeframe matrix)
      else none) = some (q, sig) := h
    by_cases hc : resultsCount (storeResult r timeframe matrix) = 3
    · rw [if_pos hc] at h
      exact computeFinalSignal_spec _ q sig h
    · rw [if_neg hc] at h
      cases h

/-- Witness for C2 amended, at the literal notes of the claim: with all
three timeframes reported (`1m ↦ 1.0`, `3m ↦ 0.0`, the incoming `5m ↦ -1.0`),
the computed decision is the weighted score sum, equal to `0`, and the
candidate signal is neutral. -/
theorem c2_aggregator_amended_witness :
    (0 : ℚ) = (computeScores
        (btcMatrixCallback ⟨some 1, some 0, none⟩ "5m" (-1)).1).sum ∧
    (0 : ℚ) = 0 ∧ TradeSignal.neutral = TradeSignal.neutral :=
  (c2_aggregator_amended ⟨some 1, some 0, none⟩ "5m" (-1)).2.1 0
    TradeSignal.neutral
    (by
      simp [btcMatrixCallback, storeResult, resultsCount,
        computeFinalSignal, computeScores, extractScoreFromMatrix]
      norm_num)

/-! ### Same-candle flip guard (`btc_futures_strategy.py` lines 94-121) -/

inductive TradeType
  | buy
  | sell
deriving DecidableEq

/-- The strategy state relevant to `_emit_signal`: `self.previous_signal`
(initially `None`, line 28). -/
structure BtcStrategyState where
  previous_signal : Option String
deriving DecidableEq

/-- `current_signal = "LONG" if trade_type == TradeType.BUY else "SHORT"`. -/
def signalName (trade_type : TradeType) : String :=
  match trade_type with
  | .buy => "LONG"
  | .sell => "SHORT"

/-- `BTCFuturesScalperStrategy._emit_signal` (lines 101-121): a signal in
the same direction as `previous_signal` (or a first signal) is recorded and
triggered (`trigger_signal` awaited, the returned Boolean); a flipped signal
returns early, leaving the state untouched. -/
def emitSignal (st : BtcStrategyState) (trade_type : TradeType) :
    BtcStrategyState × Bool :=
  match st.previous_signal with
  | some p =>
    if p = signalName trade_type then (⟨some (signalName trade_type)⟩, true)
    else (st, false)
  | none => (⟨some (signalName trade_type)⟩, true)

/-- `BTCFuturesScalperStrategy._emit_neutral_signal` (lines 94-99): `pass`,
so the state is untouched and nothing is triggered. -/
def emitNeutralSignal (st : BtcStrategyState) : BtcStrategyState × Bool :=
  (st, false)

/-- C5 counterexample: after a committed LONG followed by a neutral
emission, a SHORT-triggering decision is still rejected: the state remains
LONG and nothing is triggered, because `_emit_neutral_signal` does not reset
`previous_signal` (and no cooldown mechanism exists in this strategy).  The
claim states the SHORT is accepted and its signal emitted once the state has
passed through NEUTRAL. -/
theorem c5_counterexample :
    emitSignal
        (emitNeutralSignal (emitSignal ⟨none⟩ TradeType.buy).1).1
        TradeType.sell
      = (⟨some "LONG"⟩, false) ∧
    (emitSignal ⟨none⟩ TradeType.buy).1 = ⟨some "LONG"⟩ := by
  decide

/-- C5 amended: starting from a committed LONG state, a SHORT-triggering
decision is rejected (state unchanged, nothing emitted) whenever
`previous_signal` differs from the incoming direction — and since
`_emit_neutral_signal` is a no-op on the state and nothing ever resets
`previous_signal`, this rejection persists even after any number of neutral
emissions: passing through NEUTRAL never re-enables the opposite
direction. -/
theorem c5_flip_guard_amended (st : BtcStrategyState) (trade_type : TradeType) :
    (∀ p, st.previous_signal = some p → p ≠ signalName trade_type →
      emitSignal st trade_type = (st, false)) ∧
    emitNeutralSignal st = (st, false) := by
  constructor
  · intro p hp hne
    simp only [emitSignal, hp]
    rw [if_neg hne]
  · rfl

/-- Witness for C5 amended: with `previous_signal = "LONG"`, a SELL is
rejected without touching the state. -/
theorem c5_flip_guard_amended_witness :
    emitSignal ⟨some "LONG"⟩ TradeType.sell = (⟨some "LONG"⟩, false) :=
  (c5_flip_guard_amended ⟨some "LONG"⟩ TradeType.sell).1 "LONG" rfl (by decide)

/-! ## MakerFirstRangeMRStrategy.matrix_callback
(`maker_first_range_mr_strategy.py` lines 37-75)

`range_regime_eval` and `entry_eval` are the evaluation notes fetched from
the matrix for the two configured evaluators (`None` when the evaluator is
not configured or its matrix node is missing, lines 38-60 and 77-97);
`final_note` starts as the pending sentinel `START_PENDING_EVAL_NOTE` and is
replaced by the entry note only when both notes are available and the regime
note equals 1 (lines 62-69). -/

inductive StrategyNote
  | pending
  | val (q : ℚ)
deriving DecidableEq

def makerFinalNote (range_regime_eval entry_eval : Option ℚ) : StrategyNote :=
  match range_regime_eval, entry_eval with
  | some r, some e =>
    if r = 1 then StrategyNote.val e else StrategyNote.pending
  | _, _ => StrategyNote.pending

/-- C7: regime gate.  Whenever both evaluator values are available and the
regime note equals 1, the strategy's final note is the entry note unchanged;
in every other case — regime note different from 1 (in particular 0), or
either value missing — the final note is the pending sentinel (withheld),
never a forced neutral value. -/
theorem c7_regime_gate (range_regime_eval entry_eval : Option ℚ) :
    (∀ e, entry_eval = some e → range_regime_eval = some 1 →
      makerFinalNote range_regime_eval entry_eval = StrategyNote.val e) ∧
    (range_regime_eval ≠ some 1 →
      makerFinalNote range_regime_eval entry_eval = StrategyNote.pending) ∧
    (entry_eval = none →
      makerFinalNote range_regime_eval entry_eval = StrategyNote.pending) ∧
    (∀ q, makerFinalNote range_regime_eval entry_eval ≠ StrategyNote.val q ∨
      (range_regime_eval = some 1 ∧ entry_eval = some q)) := by
  refine ⟨?_, ?_, ?_, ?_⟩
  · rintro e rfl rfl
    simp [makerFinalNote]
  · intro hr
    rcases range_regime_eval with _ | r
    · rcases entry_eval with _ | e <;> rfl
    · rcases entry_eval with _ | e
      · rfl
      · have hr1 : ¬ r = 1 := fun h => hr (by rw [h])
        simp [makerFinalNote, hr1]
  · rintro rfl
    rcases range_regime_eval with _ | r <;> rfl
  · intro q
    rcases range_regime_eval with _ | r
    · left
      rcases entry_eval with _ | e <;> simp [makerFinalNote]
    · rcases entry_eval with _ | e
      · left
        simp [makerFinalNote]
      · by_cases hr1 : r = 1
        · by_cases hq : e = q
          · right
            exact ⟨by rw [hr1], by rw [hq]⟩
          · left
            simp [makerFinalNote, hr1, hq]
        · left
          simp [makerFinalNote, hr1]

/-- Witness for C7: with regime note 1 the entry note `1/2` passes through;
with regime note 0 the final note is withheld (pending). -/
theorem c7_regime_gate_witness :
    makerFinalNote (some 1) (some (1 / 2)) = StrategyNote.val (1 / 2) ∧
    makerFinalNote (some 0) (some (1 / 2)) = StrategyNote.pending :=
  ⟨(c7_regime_gate (some 1) (some (1 / 2))).1 (1 / 2) rfl rfl,
    (c7_regime_gate (some 0) (some (1 / 2))).2.1 (by simp)⟩

/-! ## EMAgptEvaluator.evaluate (`emagpt.py` lines 160-244)

The tulipy indicators used by `evaluate` are modelled over rationals:
`tulipy.ema(xs, n)` warms up from the first sample
(`ema[0] = xs[0]`, `ema[i] = (xs[i] - ema[i-1]) * 2/(n+1) + ema[i-1]`) and
returns a full-length array; `tulipy.atr(h, l, c, 14)[-1]` is the last
Wilder-smoothed true range (seeded with the arithmetic mean of the first 14
true ranges) and raises when fewer than 14 candles are available — that
exception, and the `IndexError` of `closes[-momentum_lookback]` when the
lookback exceeds the history, escape `evaluate` and are modelled by
`EvalOutcome.exn`.  Division is total rational division (`q / 0 = 0`)
whereas Python would raise `ZeroDivisionError` on a zero denominator;
theorems that depend on a quotient use inputs or hypotheses with visibly
non-zero denominators.  `momentum_lookback` is at least 1 per its user
input constraint (`min_val=1`). -/

structure EmagptConfig where
  fast_period : ℕ
  slow_period : ℕ
  price_threshold_percent : ℚ
  reverse_signal : Bool
  momentum_lookback : ℕ
  min_slope : ℚ
  persistence_candles : ℕ
deriving DecidableEq

/-- `EMAgptEvaluator.get_default_config` (lines 99-109). -/
def emagptDefaultConfig : EmagptConfig :=
  { fast_period := 21
    slow_period := 100
    price_threshold_percent := 1 / 4
    reverse_signal := false
    momentum_lookback := 3
    min_slope := 1 / 4000
    persistence_candles := 2 }

def tulipEma (period : ℕ) (xs : List ℚ) : List ℚ :=
  match xs with
  | [] => []
  | x :: rest =>
    List.scanl (fun e v => (v - e) * (2 / ((period : ℚ) + 1)) + e) x rest

/-- True ranges after the first bar:
`max(high - low, |high - prev_close|, |low - prev_close|)`. -/
def trAux : List ℚ → List ℚ → List ℚ → List ℚ
  | h :: hs, l :: ls, pc :: pcs =>
    max (h - l) (max |h - pc| |l - pc|) :: trAux hs ls pcs
  | _, _, _ => []

/-- The true-range series (first bar has no previous close). -/
def trList (highs lows closes : List ℚ) : List ℚ :=
  match highs, lows with
  | h :: hs, l :: ls => (h - l) :: trAux hs ls closes
  | _, _ => []

/-- `tulipy.atr(highs, lows, closes, 14)[-1]`: Wilder smoothing of the true
ranges, seeded with the mean of the first 14. -/
def tulipAtrLast (highs lows closes : List ℚ) : ℚ :=
  ((trList highs lows closes).drop 14).foldl
    (fun acc tr => (acc * 13 + tr) / 14)
    (((trList highs lows closes).take 14).sum / 14)

inductive EvalNote
  | pending
  | note (signal : ℤ)
deriving DecidableEq

/-- Outcome of one `evaluate` call: the final `eval_note`, whether
`evaluation_completed` was awaited, and the updated persistence buffer; or
an escaped exception. -/
inductive EvalOutcome
  | ret (note : EvalNote) (completed : Bool) (history : List ℤ)
  | exn
deriving DecidableEq

/-- `price = closes[-1]` (line 181). -/
def emagptPrice (closes : List ℚ) : ℚ :=
  closes.getD (closes.length - 1) 0

/-- `ema_slow_last = ema_slow[-1]` (lines 178-180). -/
def emagptEmaSlowLast (cfg : EmagptConfig) (closes : List ℚ) : ℚ :=
  (tulipEma cfg.slow_period closes).getD
    ((tulipEma cfg.slow_period closes).length - 1) 0

/-- `slope = (ema_slow[-1] - ema_slow[-2]) / ema_slow_last` (line 184). -/
def emagptSlope (cfg : EmagptConfig) (closes : List ℚ) : ℚ :=
  (emagptEmaSlowLast cfg closes -
      (tulipEma cfg.slow_period closes).getD
        ((tulipEma cfg.slow_period closes).length - 2) 0) /
    emagptEmaSlowLast cfg closes

/-- `dynamic_threshold = max(price_threshold_percent / 100, atr / price)`
(lines 189-193). -/
def emagptDynThreshold (cfg : EmagptConfig) (closes highs lows : List ℚ) : ℚ :=
  max (cfg.price_threshold_percent / 100)
    (tulipAtrLast highs lows closes / emagptPrice closes)

/-- `ema_distance = abs(price - ema_slow_last) / ema_slow_last` (line 196). -/
def emagptEmaDistance (cfg : EmagptConfig) (closes : List ℚ) : ℚ :=
  |emagptPrice closes - emagptEmaSlowLast cfg closes| / emagptEmaSlowLast cfg closes

/-- `momentum = (price - closes[-lookback]) / closes[-lookback]`
(lines 201-203). -/
def emagptMomentum (cfg : EmagptConfig) (closes : List ℚ) : ℚ :=
  (emagptPrice closes - closes.getD (closes.length - cfg.momentum_lookback) 0) /
    closes.getD (closes.length - cfg.momentum_lookback) 0

/-- The raw directional signal (lines 205-219). -/
def emagptRawSignal (cfg : EmagptConfig) (closes highs lows : List ℚ) : ℤ :=
  if (tulipEma cfg.fast_period closes).getD
        ((tulipEma cfg.fast_period closes).length - 1) 0 >
      emagptEmaSlowLast cfg closes ∧
    emagptPrice closes >
      emagptEmaSlowLast cfg closes *
        (1 + emagptDynThreshold cfg closes highs lows) ∧
    emagptMomentum cfg closes > 0 then 1
  else if (tulipEma cfg.fast_period closes).getD
        ((tulipEma cfg.fast_period closes).length - 1) 0 <
      emagptEmaSlowLast cfg closes ∧
    emagptPrice closes <
      emagptEmaSlowLast cfg closes *
        (1 - emagptDynThreshold cfg closes highs lows) ∧
    emagptMomentum cfg closes < 0 then -1
  else 0

/-- The signal after the optional reversal (lines 221-222). -/
def emagptSignal (cfg : EmagptConfig) (closes highs lows : List ℚ) : ℤ :=
  if cfg.reverse_signal then -(emagptRawSignal cfg closes highs lows)
  else emagptRawSignal cfg closes highs lows

/-- `EMAgptEvaluator.evaluate` (lines 160-244), as a function of the candle
slices and the current persistence buffer for the `(symbol, time_frame)`
pair. -/
def emagptEvaluate (cfg : EmagptConfig) (closes highs lows : List ℚ)
    (history : List ℤ) : EvalOutcome :=
  if closes.length < cfg.slow_period + 2 then
    EvalOutcome.ret EvalNote.pending false history
  else if |emagptSlope cfg closes| < cfg.min_slope then
    EvalOutcome.ret EvalNote.pending false history
  else if closes.length < 14 then EvalOutcome.exn
  else if emagptEmaDistance cfg closes <
      emagptDynThreshold cfg closes highs lows * (8 / 10) then
    EvalOutcome.ret EvalNote.pending false history
  else if closes.length < cfg.momentum_lookback then EvalOutcome.exn
  else
    EvalOutcome.ret
      (EvalNote.note
        (persistStep cfg.persistence_candles history
          (emagptSignal cfg closes highs lows)).2)
      true
      (persistStep cfg.persistence_candles history
        (emagptSignal cfg closes highs lows)).1

/-- Whether `evaluation_completed` was awaited by this call. -/
def emagptCompleted : EvalOutcome → Bool
  | .ret _ completed _ => completed
  | .exn => false

/-! ### Concrete evaluator run reaching the no-trade zone

Configuration within the user-input bounds (`fast_period = 1`,
`slow_period = 1`, `price_threshold_percent = 0.1`, `momentum_lookback = 1`,
`min_slope = 0.0001`, `persistence_candles = 1`) and fourteen candles of
constant price 100 followed by a close at 101; highs and lows equal the
closes.  The slow EMA then equals the close series, so the last close sits
exactly on it and the no-trade zone check fires. -/

def c6cfg : EmagptConfig :=
  { fast_period := 1
    slow_period := 1
    price_threshold_percent := 1 / 10
    reverse_signal := false
    momentum_lookback := 1
    min_slope := 1 / 10000
    persistence_candles := 1 }

def c6closes : List ℚ :=
  [100, 100, 100, 100, 100, 100, 100, 100, 100, 100, 100, 100, 100, 101]

lemma c6ema : tulipEma 1 c6closes = c6closes := by
  simp [tulipEma, c6closes, List.scanl]
  norm_num

lemma c6emaSlowLast : emagptEmaSlowLast c6cfg c6closes = 101 := by
  have h1 : c6cfg.slow_period = 1 := rfl
  rw [emagptEmaSlowLast, h1, c6ema]
  decide

lemma c6slopeVal : emagptSlope c6cfg c6closes = 1 / 101 := by
  have h1 : c6cfg.slow_period = 1 := rfl
  rw [emagptSlope, c6emaSlowLast, h1, c6ema]
  have h2 : c6closes.getD (c6closes.length - 2) 0 = 100 := by decide
  rw [h2]
  norm_num

lemma c6slopeOk : ¬ (|emagptSlope c6cfg c6closes| < c6cfg.min_slope) := by
  rw [c6slopeVal]
  have habs : |(1 : ℚ) / 101| = 1 / 101 := abs_of_pos (by norm_num)
  rw [habs]
  norm_num [c6cfg]

lemma c6distVal : emagptEmaDistance c6cfg c6closes = 0 := by
  have hp : emagptPrice c6closes = 101 := by decide
  rw [emagptEmaDistance, c6emaSlowLast, hp]
  norm_num

lemma c6distLt :
    emagptEmaDistance c6cfg c6closes <
      emagptDynThreshold c6cfg c6closes c6closes c6closes * (8 / 10) := by
  rw [c6distVal]
  have hunfold : emagptDynThreshold c6cfg c6closes c6closes c6closes
      = max (c6cfg.price_threshold_percent / 100)
          (tulipAtrLast c6closes c6closes c6closes / emagptPrice c6closes) := rfl
  have hth : c6cfg.price_threshold_percent / 100 = 1 / 1000 := by
    norm_num [c6cfg]
  have hpos : (0 : ℚ) < emagptDynThreshold c6cfg c6closes c6closes c6closes := by
    rw [hunfold]
    calc (0 : ℚ) < 1 / 1000 := by norm_num
      _ = c6cfg.price_threshold_percent / 100 := hth.symm
      _ ≤ _ := le_max_left _ _
  exact mul_pos hpos (by norm_num)

/-- C6 counterexample: a concrete cycle that satisfies the claim's
hypothesis — the normalized distance of the last close from the slow EMA is
below 0.8 times the dynamic threshold — on which `evaluate` returns early
with the pending sentinel as `eval_note` (and without delivering any note),
not with the zero (neutral) note the claim states. -/
theorem c6_counterexample :
    emagptEmaDistance c6cfg c6closes <
      emagptDynThreshold c6cfg c6closes c6closes c6closes * (8 / 10) ∧
    emagptEvaluate c6cfg c6closes c6closes c6closes []
      = EvalOutcome.ret EvalNote.pending false [] ∧
    EvalNote.pending ≠ EvalNote.note 0 := by
  refine ⟨c6distLt, ?_, by decide⟩
  unfold emagptEvaluate
  rw [if_neg (by decide), if_neg c6slopeOk, if_neg (by decide), if_pos c6distLt]

/-- C6 amended: on every cycle that reaches the no-trade zone check (enough
history, slope filter passed, ATR computable) with the normalized distance
of the last close from the slow EMA below 0.8 times the dynamic threshold,
the evaluator returns early: `eval_note` stays the pending sentinel (not
zero), no note is delivered, and the persistence buffer is untouched. -/
theorem c6_no_trade_zone_amended (cfg : EmagptConfig)
    (closes highs lows : List ℚ) (history : List ℤ)
    (h1 : ¬ closes.length < cfg.slow_period + 2)
    (h2 : ¬ |emagptSlope cfg closes| < cfg.min_slope)
    (h3 : ¬ closes.length < 14)
    (h4 : emagptEmaDistance cfg closes <
      emagptDynThreshold cfg closes highs lows * (8 / 10)) :
    emagptEvaluate cfg closes highs lows history
      = EvalOutcome.ret EvalNote.pending false history := by
  unfold emagptEvaluate
  rw [if_neg h1, if_neg h2, if_neg h3, if_pos h4]

/-- Witness for C6 amended at the concrete no-trade-zone cycle. -/
theorem c6_no_trade_zone_amended_witness :
    emagptEvaluate c6cfg c6closes c6closes c6closes []
      = EvalOutcome.ret EvalNote.pending false [] :=
  c6_no_trade_zone_amended c6cfg c6closes c6closes c6closes []
    (by decide) c6slopeOk (by decide) c6distLt

/-- C9 counterexample: a call with empty history (shorter than
`slow_period + 2`) sets the pending note but returns without awaiting
`evaluation_completed`, so no note is delivered for that cycle — the claim
states every invocation delivers exactly one note, including short-history
cycles. -/
theorem c9_counterexample :
    emagptEvaluate emagptDefaultConfig [] [] [] []
      = EvalOutcome.ret EvalNote.pending false [] ∧
    emagptCompleted (emagptEvaluate emagptDefaultConfig [] [] [] []) = false := by
  constructor
  · decide
  · decide

/-- C9 amended: `evaluation_completed` is awaited exactly on the cycles
that pass every filter — enough history for the slow EMA, slope magnitude
at least `min_slope`, at least 14 candles for the ATR, normalized EMA
distance at least 0.8 times the dynamic threshold, and enough history for
the momentum lookback; on every cycle that returns early the note stays the
pending sentinel and the persistence buffer is unchanged, and no exception
or error is raised there. -/
theorem c9_note_delivery_amended (cfg : EmagptConfig)
    (closes highs lows : List ℚ) (history : List ℤ) :
    (emagptCompleted (emagptEvaluate cfg closes highs lows history) = true ↔
      (cfg.slow_period + 2 ≤ closes.length ∧
        cfg.min_slope ≤ |emagptSlope cfg closes| ∧
        14 ≤ closes.length ∧
        emagptDynThreshold cfg closes highs lows * (8 / 10) ≤
          emagptEmaDistance cfg closes ∧
        cfg.momentum_lookback ≤ closes.length)) ∧
    (∀ note completed h2,
      emagptEvaluate cfg closes highs lows history
          = EvalOutcome.ret note completed h2 →
        completed = false → note = EvalNote.pending ∧ h2 = history) := by
  constructor
  · unfold emagptEvaluate
    split_ifs with h1 h2 h3 h4 h5
    · simp only [emagptCompleted, Bool.false_eq_true, false_iff]
      rintro ⟨ha, -⟩
      omega
    · simp only [emagptCompleted, Bool.false_eq_true, false_iff]
      rintro ⟨-, hb, -⟩
      exact absurd hb (not_le.mpr h2)
    · simp only [emagptCompleted, Bool.false_eq_true, false_iff]
      rintro ⟨-, -, hc, -⟩
      omega
    · simp only [emagptCompleted, Bool.false_eq_true, false_iff]
      rintro ⟨-, -, -, hd, -⟩
      exact absurd hd (not_le.mpr h4)
    · simp only [emagptCompleted, Bool.false_eq_true, false_iff]
      rintro ⟨-, -, -, -, he⟩
      omega
    · simp only [emagptCompleted, true_iff]
      exact ⟨by omega, not_lt.mp h2, by omega, not_lt.mp h4, by omega⟩
  · unfold emagptEvaluate
    split_ifs with h1 h2 h3 h4 h5
    · intro note completed h2 heq _
      cases heq
      exact ⟨rfl, rfl⟩
    · intro note completed h2 heq _
      cases heq
      exact ⟨rfl, rfl⟩
    · intro note completed h2 heq
      cases heq
    · intro note completed h2 heq _
      cases heq
      exact ⟨rfl, rfl⟩
    · intro note completed h2 heq
      cases heq
    · intro note completed h2 heq hc
      cases heq
      cases hc

/-- Witness for C9 amended: on the empty-history call the early return
carries the pending note and the untouched buffer. -/
theorem c9_note_delivery_amended_witness :
    EvalNote.pending = EvalNote.pending ∧ ([] : List ℤ) = [] :=
  (c9_note_delivery_amended emagptDefaultConfig [] [] [] []).2
    EvalNote.pending false [] (by decide) rfl

/-! ## MicroTrendPullbackEvaluator._analyze_pullback_conditions
(`micro_trend_pullback.py` lines 135-211)

The function receives the close series, the EMA series (unused by the
body), the current price, the current EMA value (`None` when unavailable;
the `math.isnan` guard has no rational counterpart) and the volume series.
`np.mean(volume_candles[-5:])` is the arithmetic mean of the last five
volumes.  Division is total rational division; on the inputs where Python
would raise `ZeroDivisionError` (zero `recent_prices[0]` or zero
`current_ema`) the modelled quotient is 0, which fails the strict branch
conditions, so the model returns `none` where Python raises — no `some`
value arises from such inputs. -/

structure MicroPullbackConfig where
  ema_length : ℕ
  volatility_threshold : ℚ
  pullback_depth : ℚ
  volume_multiplier : ℚ
deriving DecidableEq

/-- `ema_trend_direction = 1 if current_price > current_ema else -1`
(line 152). -/
def emaTrendDirection (current_price ce : ℚ) : ℤ :=
  if current_price > ce then 1 else -1

/-- `price_change_from_ema = (current_price - current_ema) / current_ema * 100`
(line 155). -/
def priceChangeFromEma (current_price ce : ℚ) : ℚ :=
  (current_price - ce) / ce * 100

/-- `recent_price_change` over `recent_prices = close_candles[-5:]`
(lines 145, 167, 191). -/
def recentPriceChange (close_candles : List ℚ) : ℚ :=
  ((takeLast 5 close_candles).getD ((takeLast 5 close_candles).length - 1) 0 -
      (takeLast 5 close_candles).getD 0 0) /
    (takeLast 5 close_candles).getD 0 0 * 100

/-- `volume_confirmation = current_volume > avg_volume * volume_multiplier`
(lines 174-178). -/
def volumeConfirmation (cfg : MicroPullbackConfig)
    (volume_candles : List ℚ) : Prop :=
  volume_candles.getD (volume_candles.length - 1) 0 >
    (takeLast 5 volume_candles).sum / 5 * cfg.volume_multiplier

instance (cfg : MicroPullbackConfig) (volume_candles : List ℚ) :
    Decidable (volumeConfirmation cfg volume_candles) := by
  unfold volumeConfirmation
  infer_instance

/-- Body of `_analyze_pullback_conditions` once `current_ema` is known to
be available (lines 151-211). -/
def analyzePullbackSome (cfg : MicroPullbackConfig)
    (close_candles _ema_values : List ℚ) (current_price ce : ℚ)
    (volume_candles : List ℚ) : Option ℚ :=
  if emaTrendDirection current_price ce < 0 ∧
      |priceChangeFromEma current_price ce| > cfg.pullback_depth * 100 then
    if recentPriceChange close_candles > 2 ∧
        |recentPriceChange close_candles| > cfg.pullback_depth * 100 then
      if 5 ≤ volume_candles.length then
        if volumeConfirmation cfg volume_candles ∨
            volume_candles.length < 5 then
          some (-(min 1 (|recentPriceChange close_candles| / 100)) *
            ((emaTrendDirection current_price ce : ℤ) : ℚ))
        else none
      else none
    else none
  else if emaTrendDirection current_price ce > 0 ∧
      |priceChangeFromEma current_price ce| > cfg.pullback_depth * 100 then
    if recentPriceChange close_candles < -2 ∧
        |recentPriceChange close_candles| > cfg.pullback_depth * 100 then
      if 5 ≤ volume_candles.length then
        if volumeConfirmation cfg volume_candles ∨
            volume_candles.length < 5 then
          some ((min 1 (|recentPriceChange close_candles| / 100)) *
            ((emaTrendDirection current_price ce : ℤ) : ℚ))
        else none
      else none
    else none
  else none

def analyzePullbackConditions (cfg : MicroPullbackConfig)
    (close_candles ema_values : List ℚ) (current_price : ℚ)
    (current_ema : Option ℚ) (volume_candles : List ℚ) : Option ℚ :=
  if close_candles.length < cfg.ema_length + 5 then none
  else
    match current_ema with
    | none => none
    | some ce =>
      analyzePullbackSome cfg close_candles ema_values current_price ce
        volume_candles

/-- C10: the micro-trend pullback evaluator never produces a negative note:
every `some` value returned by `_analyze_pullback_conditions` is strictly
positive, at most 1, and equal to `min(1, |recent_price_change| / 100)` —
in the downtrend branch because it returns
`-pullback_strength * ema_trend_direction` with `ema_trend_direction = -1`,
and in the uptrend branch because `ema_trend_direction = 1`; the documented
output "values near -1: strong pullback (buy)" is therefore unreachable. -/
theorem c10_pullback_note_positive (cfg : MicroPullbackConfig)
    (close_candles ema_values : List ℚ) (current_price : ℚ)
    (current_ema : Option ℚ) (volume_candles : List ℚ) (v : ℚ)
    (h : analyzePullbackConditions cfg close_candles ema_values current_price
        current_ema volume_candles = some v) :
    0 < v ∧ v ≤ 1 ∧ v = min 1 (|recentPriceChange close_candles| / 100) := by
  unfold analyzePullbackConditions at h
  by_cases hlen : close_candles.length < cfg.ema_length + 5
  · rw [if_pos hlen] at h
    cases h
  · rw [if_neg hlen] at h
    rcases current_ema with _ | ce
    · cases h
    · replace h : analyzePullbackSome cfg close_candles ema_values
          current_price ce volume_candles = some v := h
      unfold analyzePullbackSome at h
      split_ifs at h with hd1 hr1 hv1 hc1 hd2 hr2 hv2 hc2 <;>
        try exact Option.noConfusion h
      · -- downtrend branch: direction is -1
        have hdir : emaTrendDirection current_price ce = -1 := by
          rcases hd1 with ⟨hlt, -⟩
          unfold emaTrendDirection at hlt ⊢
          split_ifs at hlt ⊢ with hpc
          · omega
          · rfl
        have habs : (2 : ℚ) < |recentPriceChange close_candles| :=
          lt_of_lt_of_le hr1.1 (le_abs_self _)
        have hmpos : 0 < min 1 (|recentPriceChange close_candles| / 100) := by
          apply lt_min (by norm_num)
          apply div_pos (by linarith) (by norm_num)
        have hval : -(min 1 (|recentPriceChange close_candles| / 100)) *
            ((emaTrendDirection current_price ce : ℤ) : ℚ)
            = min 1 (|recentPriceChange close_candles| / 100) := by
          rw [hdir]
          push_cast
          ring
        rw [hval] at h
        injection h with hv
        refine ⟨?_, ?_, ?_⟩
        · rw [← hv]
          exact hmpos
        · rw [← hv]
          exact min_le_left _ _
        · rw [hv]
      · -- uptrend branch: direction is 1
        have hdir : emaTrendDirection current_price ce = 1 := by
          rcases hd2 with ⟨hgt, -⟩
          unfold emaTrendDirection at hgt ⊢
          split_ifs at hgt ⊢ with hpc
          · rfl
          · omega
        have habs : (2 : ℚ) < |recentPriceChange close_candles| := by
          have := hr2.1
          calc (2 : ℚ) < -(recentPriceChange close_candles) := by linarith
            _ ≤ |recentPriceChange close_candles| := neg_le_abs _
        have hmpos : 0 < min 1 (|recentPriceChange close_candles| / 100) := by
          apply lt_min (by norm_num)
          apply div_pos (by linarith) (by norm_num)
        have hval : (min 1 (|recentPriceChange close_candles| / 100)) *
            ((emaTrendDirection current_price ce : ℤ) : ℚ)
            = min 1 (|recentPriceChange close_candles| / 100) := by
          rw [hdir]
          push_cast
          ring
        rw [hval] at h
        injection h with hv
        refine ⟨?_, ?_, ?_⟩
        · rw [← hv]
          exact hmpos
        · rw [← hv]
          exact min_le_left _ _
        · rw [hv]

/-- Witness for C10: a concrete uptrend pullback (price 95 above the EMA 90
after five flat candles at 100 then a dip to 95, with confirming volume)
returns the strictly positive note `1/20 = min(1, 5/100)`. -/
theorem c10_pullback_note_positive_witness :
    analyzePullbackConditions ⟨5, 1 / 2, 0, 0⟩
        [1, 1, 1, 1, 1, 100, 100, 100, 100, 95] [] 95 (some 90)
        [1, 1, 1, 1, 2]
      = some (1 / 20) ∧
    (0 : ℚ) < 1 / 20 ∧ (1 / 20 : ℚ) ≤ 1 ∧
    (1 / 20 : ℚ)
      = min 1 (|recentPriceChange [1, 1, 1, 1, 1, 100, 100, 100, 100, 95]| / 100) := by
  have hsome : analyzePullbackSome ⟨5, 1 / 2, 0, 0⟩
      [1, 1, 1, 1, 1, 100, 100, 100, 100, 95] [] 95 90 [1, 1, 1, 1, 2]
      = some (1 / 20) := by
    unfold analyzePullbackSome emaTrendDirection priceChangeFromEma
      recentPriceChange volumeConfirmation takeLast
    norm_num
  have heq : analyzePullbackConditions ⟨5, 1 / 2, 0, 0⟩
      [1, 1, 1, 1, 1, 100, 100, 100, 100, 95] [] 95 (some 90)
      [1, 1, 1, 1, 2]
      = some (1 / 20) := by
    have hlen : ¬ ([1, 1, 1, 1, 1, 100, 100, 100, 100, 95] : List ℚ).length <
        (⟨5, 1 / 2, 0, 0⟩ : MicroPullbackConfig).ema_length + 5 := by
      decide
    unfold analyzePullbackConditions
    rw [if_neg hlen]
    exact hsome
  have h := c10_pullback_note_positive ⟨5, 1 / 2, 0, 0⟩
    [1, 1, 1, 1, 1, 100, 100, 100, 100, 95] [] 95 (some 90)
    [1, 1, 1, 1, 2] (1 / 20) heq
  exact ⟨heq, h.1, h.2.1, h.2.2⟩
